import Mathlib

/-!
# Verification of the story-launcher Tool Installation & Update Manager

Shallow embedding of the installer core of `src/src-tauri/src/lib.rs`
(release resolution, asset selection, download, archive extraction,
install/update orchestration, persisted version bookkeeping).

Modelling conventions:
* Rust strings are Lean `String`s; the Rust byte-level operations
  (`ends_with`, `trim_start_matches`, `lines`, `split`, `contains`) are
  modelled on the character sequence `String.data`, which coincides with
  the byte-level behaviour for the valid-UTF-8 patterns used by the code.
* Fallible external effects (HTTP requests, filesystem calls, child
  processes) are modelled by an explicit environment record holding the
  result each call would produce (`Except String Unit` mirrors Rust's
  `Result<_, E>` mapped to `String` errors, exactly as the source maps
  them with `map_err`).
* The mutable world is the config file and the existence of the
  installed app bundle; each operation returns the updated world plus a
  trace of the side-effecting steps it attempted, so that ordering
  properties ("removal happens before extraction", "detach runs after
  copy") are statable.
-/

namespace StoryLauncher

/-! ## String primitives (Rust `str` methods, on the char sequence) -/

/-- Rust `str::ends_with`, as a suffix test on the character sequence. -/
def ends_with (s suf : String) : Bool :=
  suf.data.isSuffixOf s.data

/-- Rust `tag_name.trim_start_matches('v')`: strip every leading `'v'`. -/
def trim_start_v (s : String) : String :=
  ⟨s.data.dropWhile (fun c => c = 'v')⟩

/-- Rust `str::contains(pat)` on character sequences. -/
def containsSeq (pat : List Char) : List Char → Bool
  | [] => pat.isPrefixOf []
  | c :: rest => pat.isPrefixOf (c :: rest) || containsSeq pat rest

/-- Fuelled worker for `splitSeq`; the fuel bounds the recursion depth and
is always instantiated with the length of the input, which suffices. -/
def splitSeqF (sep : List Char) : Nat → List Char → List (List Char)
  | _, [] => [[]]
  | 0, l => [l]
  | fuel + 1, c :: rest =>
    if sep.isPrefixOf (c :: rest) then
      [] :: splitSeqF sep fuel (List.drop sep.length (c :: rest))
    else
      match splitSeqF sep fuel rest with
      | [] => [[c]]
      | h :: t => (c :: h) :: t

/-- Rust `str::split(sep)` for a non-empty separator: the pieces between
non-overlapping left-to-right matches of `sep`. -/
def splitSeq (sep l : List Char) : List (List Char) :=
  splitSeqF sep l.length l

/-- Rust `str::lines`: split on `'\n'`, drop a final empty piece produced
by a trailing newline, and strip a trailing `'\r'` from each line. -/
def rustLines (s : String) : List String :=
  let parts := List.splitOn '\n' s.data
  let parts :=
    match parts.getLast? with
    | some [] => parts.dropLast
    | _ => parts
  parts.map (fun l => ⟨if l.getLast? = some '\r' then l.dropLast else l⟩)

/-! ## Data model (`lib.rs` types) -/

/-- `struct GitHubAsset { name, browser_download_url }` -/
structure GitHubAsset where
  name : String
  browser_download_url : String
deriving DecidableEq

/-- `struct GitHubRelease { tag_name, assets }` -/
structure GitHubRelease where
  tag_name : String
  assets : List GitHubAsset
deriving DecidableEq

/-- `struct ToolStatus` -/
structure ToolStatus where
  installed : Bool
  installed_version : Option String
  latest_version : Option String
  has_update : Bool
  error : Option String
deriving DecidableEq

/-- `struct ActionResult { success, message }` -/
structure ActionResult where
  success : Bool
  message : String
deriving DecidableEq

/-- `struct ToolsConfig { tools: HashMap<String, String> }`, modelled as an
association list with unique keys (`insert` replaces). -/
structure ToolsConfig where
  tools : List (String × String)
deriving DecidableEq

/-- `ToolsConfig::default()`: the empty map. -/
def ToolsConfig.empty : ToolsConfig := ⟨[]⟩

/-- `config.tools.contains_key(k)` -/
def ToolsConfig.contains_key (c : ToolsConfig) (k : String) : Bool :=
  (List.lookup k c.tools).isSome

/-- `config.tools.get(k).cloned()` -/
def ToolsConfig.get (c : ToolsConfig) (k : String) : Option String :=
  List.lookup k c.tools

/-- `config.tools.insert(k, v)` (replacing any previous binding of `k`). -/
def ToolsConfig.insert (c : ToolsConfig) (k v : String) : ToolsConfig :=
  ⟨(k, v) :: c.tools.filter (fun p => p.1 != k)⟩

/-- The on-disk state of `~/.story-tools/config.json`, as observed by
`load_config`: the file may be absent, unreadable (`read_to_string`
fails), unparseable (`serde_json::from_str` fails), or hold a parsed
`ToolsConfig`. -/
inductive ConfigFile
  | absent
  | unreadable
  | unparseable
  | stored (c : ToolsConfig)
deriving DecidableEq

/-- `fn load_config() -> ToolsConfig`: returns the parsed config when the
file exists, reads and parses; in every other case falls through to
`ToolsConfig::default()`. -/
def load_config : ConfigFile → ToolsConfig
  | .stored c => c
  | _ => ToolsConfig.empty

/-- The mutable world an installer call can observe and modify. -/
structure World where
  /-- state of the config file at `get_config_path()` -/
  configFile : ConfigFile
  /-- whether `get_app_path(RESOLVE_SYNC_APP_NAME)` exists on disk -/
  appPathExists : Bool
deriving DecidableEq

/-! ## Asset selection -/

/-- `fn find_app_asset`: first `.app.tar.gz` asset, else first `.app.zip`
asset, else first `.dmg` asset, else `None` (the `find`/`or_else` chain). -/
def find_app_asset (release : GitHubRelease) : Option GitHubAsset :=
  match release.assets.find? (fun a => ends_with a.name ".app.tar.gz") with
  | some a => some a
  | none =>
    match release.assets.find? (fun a => ends_with a.name ".app.zip") with
    | some a => some a
    | none => release.assets.find? (fun a => ends_with a.name ".dmg")

/-! ## DMG extraction -/

/-- The parse of `hdiutil info -plist` output in `extract_from_dmg`:
first line containing `"/Volumes/"`, then the text between the first
`"<string>"` and the following `"</string>"`. -/
def find_mount_point (stdout : String) : Option String :=
  match (rustLines stdout).dropWhile
      (fun l => ! containsSeq "/Volumes/".data l.data) with
  | [] => none
  | l :: _ =>
    match (splitSeq "<string>".data l.data).get? 1 with
    | none => none
    | some part =>
      match (splitSeq "</string>".data part).head? with
      | none => none
      | some mp => some ⟨mp⟩

/-- External-process steps of `extract_from_dmg`, in invocation order. -/
inductive DmgEvent
  | attachDisk
  | queryInfo
  | copyApp
  | detachDisk
deriving DecidableEq

/-- Results the external processes of `extract_from_dmg` would produce:
`.error` on the Rust side of `.output()` failing to spawn, and a `Bool`
for the child's exit status. -/
structure DmgEnv where
  attachRes : Except String Unit
  attachStatusOk : Bool
  infoRes : Except String Unit
  infoStdout : String
  copyRes : Except String Unit
  copyStatusOk : Bool

/-- `fn extract_from_dmg`: attach, locate the mount point, copy the app,
detach (the detach command is issued after the copy command, before the
copy's result is inspected). Returns the result and the trace of
attempted process invocations. -/
def extract_from_dmg (env : DmgEnv) : Except String Unit × List DmgEvent :=
  match env.attachRes with
  | .error e => (.error ("Failed to mount DMG: " ++ e), [.attachDisk])
  | .ok _ =>
    if env.attachStatusOk then
      match env.infoRes with
      | .error e => (.error ("Failed to get mount info: " ++ e), [.attachDisk, .queryInfo])
      | .ok _ =>
        match find_mount_point env.infoStdout with
        | none => (.error "Failed to find mount point", [.attachDisk, .queryInfo])
        | some _mp =>
          let copyOutcome : Except String Unit :=
            match env.copyRes with
            | .error e => .error ("Failed to copy app: " ++ e)
            | .ok _ =>
              if env.copyStatusOk then .ok ()
              else .error "Failed to copy app from DMG"
          (copyOutcome, [.attachDisk, .queryInfo, .copyApp, .detachDisk])
    else
      (.error "Failed to mount DMG", [.attachDisk])

/-! ## Install / update orchestration -/

/-- Side-effecting steps of `install_tool`, in invocation order. -/
inductive Event
  | download
  | removeOld
  | extractTar
  | extractZip
  | extractDmg
  | removeTemp
  | clearQuarantine
  | saveCfg
deriving DecidableEq

/-- Events that run an archive extraction. -/
def isExtractEvent : Event → Bool
  | .extractTar => true
  | .extractZip => true
  | .extractDmg => true
  | _ => false

/-- Results the fallible external operations of `install_tool` would
produce, were they reached. -/
structure InstallEnv where
  /-- `ensure_dirs()` -/
  ensureDirsRes : Except String Unit
  /-- `get_latest_release(repo)` -/
  latestRelease : Except String GitHubRelease
  /-- `download_file(url, temp_file)` -/
  downloadRes : Except String Unit
  /-- `fs::remove_dir_all(app_path)` -/
  removeRes : Except String Unit
  /-- `extract_tar_gz(temp_file, apps_dir)` -/
  tarRes : Except String Unit
  /-- `extract_zip(temp_file, apps_dir)` -/
  zipRes : Except String Unit
  /-- environment of `extract_from_dmg(temp_file, apps_dir, app_name)` -/
  dmgEnv : DmgEnv
  /-- whether a successful extraction leaves the app bundle at
  `get_app_path(app_name)` (true when the archive has the bundle at top
  level, as releases are expected to) -/
  bundleAfterExtract : Bool
  /-- `save_config(&config)` -/
  saveRes : Except String Unit

/-- The `install_tool` format dispatch on `asset.name`: which extractor's
result is used (`.tar.gz`, then `.zip`, then `.dmg`, else the
"Unsupported archive format" fallback). -/
def dispatch_extract (asset : GitHubAsset) (env : InstallEnv) : Except String Unit :=
  if ends_with asset.name ".tar.gz" then env.tarRes
  else if ends_with asset.name ".zip" then env.zipRes
  else if ends_with asset.name ".dmg" then (extract_from_dmg env.dmgEnv).1
  else .error "Unsupported archive format"

/-- The trace event of the extraction branch taken by the dispatch; `[]`
exactly when the "Unsupported archive format" fallback is taken. -/
def dispatch_event (asset : GitHubAsset) : List Event :=
  if ends_with asset.name ".tar.gz" then [Event.extractTar]
  else if ends_with asset.name ".zip" then [Event.extractZip]
  else if ends_with asset.name ".dmg" then [Event.extractDmg]
  else []

/-- Tail of `install_tool` from the extraction dispatch on: extract, delete
the temp file, bail out on extraction failure, clear quarantine, record
the version (tag with leading `v`s stripped) and save the config.  On a
failed save the config file is left as it was. -/
def install_extract (tid : String) (release : GitHubRelease) (asset : GitHubAsset)
    (env : InstallEnv) (w : World) (evs : List Event) :
    ActionResult × World × List Event :=
  let evs2 := evs ++ dispatch_event asset ++ [Event.removeTemp]
  match dispatch_extract asset env with
  | .error e => (⟨false, e⟩, w, evs2)
  | .ok _ =>
    let w2 : World := ⟨w.configFile, env.bundleAfterExtract⟩
    let version := trim_start_v release.tag_name
    let config2 := (load_config w2.configFile).insert tid version
    let evs3 := evs2 ++ [Event.clearQuarantine, Event.saveCfg]
    match env.saveRes with
    | .error e => (⟨false, "Failed to save config: " ++ e⟩, w2, evs3)
    | .ok _ =>
      (⟨true, "Installed version " ++ version⟩,
       ⟨ConfigFile.stored config2, env.bundleAfterExtract⟩, evs3)

/-- `fn install_tool`: resolve the tool, ensure directories, fetch the
latest release, select an asset, download it, remove a pre-existing app
directory, then extract and record (`install_extract`). Returns the
`ActionResult`, the final world and the trace of attempted steps. -/
def install_tool (tool_id : String) (env : InstallEnv) (w : World) :
    ActionResult × World × List Event :=
  if tool_id = "resolve-sync" then
    match env.ensureDirsRes with
    | .error e => (⟨false, "Failed to create directories: " ++ e⟩, w, [])
    | .ok _ =>
      match env.latestRelease with
      | .error e => (⟨false, e⟩, w, [])
      | .ok release =>
        match find_app_asset release with
        | none => (⟨false, "No compatible download found in release"⟩, w, [])
        | some asset =>
          match env.downloadRes with
          | .error e => (⟨false, e⟩, w, [.download])
          | .ok _ =>
            if w.appPathExists then
              match env.removeRes with
              | .error e =>
                (⟨false, "Failed to remove existing app: " ++ e⟩, w,
                 [.download, .removeOld])
              | .ok _ =>
                install_extract tool_id release asset env
                  ⟨w.configFile, false⟩ [.download, .removeOld]
            else
              install_extract tool_id release asset env w [.download]
  else (⟨false, "Unknown tool"⟩, w, [])

/-- `fn update_tool`: update is the same as install. -/
def update_tool (tool_id : String) (env : InstallEnv) (w : World) :
    ActionResult × World × List Event :=
  install_tool tool_id env w

/-! ## Status checking -/

/-- `fn is_tool_installed`: the config must contain the tool id AND the
app bundle must exist on disk (unknown ids are never installed). -/
def is_tool_installed (tool_id : String) (w : World) : Bool :=
  let config := load_config w.configFile
  if config.contains_key tool_id = false then false
  else if tool_id = "resolve-sync" then w.appPathExists
  else false

/-- `fn get_installed_version` -/
def get_installed_version (tool_id : String) (w : World) : Option String :=
  (load_config w.configFile).get tool_id

/-- `fn check_tool_status`: resolve the tool, read installed state, fetch
the latest release (`latest` is the result `get_latest_release(repo)`
would produce), and derive `has_update`. -/
def check_tool_status (tool_id : String) (latest : Except String GitHubRelease)
    (w : World) : ToolStatus :=
  if tool_id = "resolve-sync" then
    let installed := is_tool_installed tool_id w
    let installed_version := get_installed_version tool_id w
    match latest with
    | .ok release =>
      let latest_version := trim_start_v release.tag_name
      let has_update := installed &&
        ((installed_version.map (fun v => v != latest_version)).getD false)
      ⟨installed, installed_version, some latest_version, has_update, none⟩
    | .error e => ⟨installed, installed_version, none, false, some e⟩
  else ⟨false, none, none, false, some "Unknown tool"⟩

/-- The environment assumptions under which every external step of an
install succeeds (and the extracted archive yields the app bundle). -/
def InstallEnv.allOk (env : InstallEnv) (r : GitHubRelease) : Prop :=
  env.ensureDirsRes = .ok () ∧ env.latestRelease = .ok r ∧
  env.downloadRes = .ok () ∧ env.removeRes = .ok () ∧
  env.tarRes = .ok () ∧ env.zipRes = .ok () ∧
  (extract_from_dmg env.dmgEnv).1 = .ok () ∧
  env.bundleAfterExtract = true ∧ env.saveRes = .ok ()

/-! ## Concrete inputs used by the witnesses -/

def demoAssetTar : GitHubAsset := ⟨"tool-v2.3.0.app.tar.gz", "https://example.invalid/a"⟩

def demoAssetDmg : GitHubAsset := ⟨"tool-v2.3.0.dmg", "https://example.invalid/b"⟩

def demoRelease : GitHubRelease := ⟨"v2.3.0", [demoAssetDmg, demoAssetTar]⟩

def demoReleaseNoAsset : GitHubRelease := ⟨"v2.4.0", [⟨"notes.txt", "u"⟩]⟩

def demoDmgEnvOk : DmgEnv :=
  ⟨.ok (), true, .ok (), "<string>/Volumes/Tool</string>", .ok (), true⟩

def demoDmgEnvNoVol : DmgEnv := ⟨.ok (), true, .ok (), "no volumes here", .ok (), true⟩

def demoEnvOk : InstallEnv :=
  ⟨.ok (), .ok demoRelease, .ok (), .ok (), .ok (), .ok (), demoDmgEnvOk, true, .ok ()⟩

def demoEnvNoAsset : InstallEnv :=
  ⟨.ok (), .ok demoReleaseNoAsset, .ok (), .ok (), .ok (), .ok (), demoDmgEnvOk,
   true, .ok ()⟩

def demoEnvRmFail : InstallEnv :=
  ⟨.ok (), .ok demoRelease, .ok (), .error "busy", .ok (), .ok (), demoDmgEnvOk,
   true, .ok ()⟩

def demoEnvSaveFail : InstallEnv :=
  ⟨.ok (), .ok demoRelease, .ok (), .ok (), .ok (), .ok (), demoDmgEnvOk,
   true, .error "disk full"⟩

def demoWorld : World := ⟨ConfigFile.stored ⟨[("resolve-sync", "2.2.0")]⟩, true⟩

/-! ## Helper lemmas -/

theorem find?_eq_some_split {α : Type} (p : α → Bool) (l : List α) (a : α)
    (h : l.find? p = some a) :
    ∃ l₁ l₂, l = l₁ ++ a :: l₂ ∧ p a = true ∧ ∀ b ∈ l₁, p b = false := by
  induction l with
  | nil => simp at h
  | cons x xs ih =>
    cases hx : p x with
    | true =>
      rw [List.find?_cons_of_pos _ hx] at h
      injection h with h
      subst h
      exact ⟨[], xs, rfl, hx, by simp⟩
    | false =>
      rw [show List.find? p (x :: xs) = List.find? p xs by
        simpa using List.find?_cons_of_neg xs (by simp [hx])] at h
      obtain ⟨l₁, l₂, rfl, hpa, hall⟩ := ih h
      refine ⟨x :: l₁, l₂, rfl, hpa, ?_⟩
      intro b hb
      rcases List.mem_cons.mp hb with rfl | hb
      · exact hx
      · exact hall b hb

theorem find?_exists_some {α : Type} (p : α → Bool) (l : List α)
    (h : ∃ a ∈ l, p a = true) : ∃ a, l.find? p = some a := by
  cases hf : l.find? p with
  | some a => exact ⟨a, rfl⟩
  | none =>
    obtain ⟨a, ha, hpa⟩ := h
    have := List.find?_eq_none.mp hf a ha
    simp [hpa] at this

theorem ends_with_mono {s p q : String} (hq : q.data <:+ p.data)
    (h : ends_with s p = true) : ends_with s q = true := by
  unfold ends_with at h ⊢
  rw [List.isSuffixOf_iff_suffix] at h ⊢
  exact hq.trans h

theorem ends_with_excl {s p q : String}
    (hpq : p.data.isSuffixOf q.data = false)
    (hqp : q.data.isSuffixOf p.data = false)
    (h : ends_with s p = true) : ends_with s q = false := by
  cases hq : ends_with s q with
  | false => rfl
  | true =>
    unfold ends_with at h hq
    rw [List.isSuffixOf_iff_suffix] at h hq
    rcases List.suffix_or_suffix_of_suffix h hq with hc | hc <;>
      rw [← List.isSuffixOf_iff_suffix] at hc
    · simp [hpq] at hc
    · simp [hqp] at hc

theorem find_app_asset_eq_none {r : GitHubRelease}
    (h : ∀ a ∈ r.assets, ends_with a.name ".app.tar.gz" = false ∧
      ends_with a.name ".app.zip" = false ∧ ends_with a.name ".dmg" = false) :
    find_app_asset r = none := by
  have h₁ : r.assets.find? (fun a => ends_with a.name ".app.tar.gz") = none :=
    List.find?_eq_none.mpr (fun a ha => by simp [(h a ha).1])
  have h₂ : r.assets.find? (fun a => ends_with a.name ".app.zip") = none :=
    List.find?_eq_none.mpr (fun a ha => by simp [(h a ha).2.1])
  have h₃ : r.assets.find? (fun a => ends_with a.name ".dmg") = none :=
    List.find?_eq_none.mpr (fun a ha => by simp [(h a ha).2.2])
  unfold find_app_asset
  rw [h₁, h₂, h₃]

theorem find_app_asset_some_suffix {r : GitHubRelease} {a : GitHubAsset}
    (h : find_app_asset r = some a) :
    a ∈ r.assets ∧ (ends_with a.name ".app.tar.gz" = true ∨
      ends_with a.name ".app.zip" = true ∨ ends_with a.name ".dmg" = true) := by
  unfold find_app_asset at h
  cases h₁ : r.assets.find? (fun a => ends_with a.name ".app.tar.gz") with
  | some b =>
    rw [h₁] at h
    simp at h
    subst h
    exact ⟨List.mem_of_find?_eq_some h₁, Or.inl (by simpa using List.find?_some h₁)⟩
  | none =>
    rw [h₁] at h
    simp at h
    cases h₂ : r.assets.find? (fun a => ends_with a.name ".app.zip") with
    | some b =>
      rw [h₂] at h
      simp at h
      subst h
      exact ⟨List.mem_of_find?_eq_some h₂,
        Or.inr (Or.inl (by simpa using List.find?_some h₂))⟩
    | none =>
      rw [h₂] at h
      simp at h
      exact ⟨List.mem_of_find?_eq_some h,
        Or.inr (Or.inr (by simpa using List.find?_some h))⟩

theorem selector_tar_dispatch {a : GitHubAsset}
    (h : ends_with a.name ".app.tar.gz" = true) :
    ends_with a.name ".tar.gz" = true :=
  ends_with_mono ⟨".app".data, by decide⟩ h

theorem selector_zip_dispatch {a : GitHubAsset}
    (h : ends_with a.name ".app.zip" = true) :
    ends_with a.name ".tar.gz" = false ∧ ends_with a.name ".zip" = true :=
  ⟨ends_with_excl (by decide) (by decide) h, ends_with_mono ⟨".app".data, by decide⟩ h⟩

theorem selector_dmg_dispatch {a : GitHubAsset}
    (h : ends_with a.name ".dmg" = true) :
    ends_with a.name ".tar.gz" = false ∧ ends_with a.name ".zip" = false :=
  ⟨ends_with_excl (by decide) (by decide) h, ends_with_excl (by decide) (by decide) h⟩

theorem ToolsConfig.get_insert (c : ToolsConfig) (k v : String) :
    (c.insert k v).get k = some v := by
  simp [ToolsConfig.insert, ToolsConfig.get, List.lookup]

theorem ToolsConfig.contains_key_insert (c : ToolsConfig) (k v : String) :
    (c.insert k v).contains_key k = true := by
  simp [ToolsConfig.contains_key, ToolsConfig.insert, List.lookup]

theorem saveCfg_not_mem_dispatch_event (asset : GitHubAsset) :
    Event.saveCfg ∉ dispatch_event asset := by
  unfold dispatch_event
  split
  · simp
  · split
    · simp
    · split <;> simp

theorem install_extract_error_shape (tid : String) (release : GitHubRelease)
    (asset : GitHubAsset) (env : InstallEnv) (w : World) (evs : List Event)
    (e : String) (hde : dispatch_extract asset env = .error e) :
    install_extract tid release asset env w evs =
      (⟨false, e⟩, w, evs ++ dispatch_event asset ++ [Event.removeTemp]) := by
  simp [install_extract, hde]

theorem install_extract_save_error (tid : String) (release : GitHubRelease)
    (asset : GitHubAsset) (env : InstallEnv) (w : World) (evs : List Event)
    (e : String) (hde : dispatch_extract asset env = .ok ())
    (hs : env.saveRes = .error e) :
    install_extract tid release asset env w evs =
      (⟨false, "Failed to save config: " ++ e⟩,
       ⟨w.configFile, env.bundleAfterExtract⟩,
       evs ++ dispatch_event asset ++
         [Event.removeTemp, Event.clearQuarantine, Event.saveCfg]) := by
  simp [install_extract, hde, hs]

theorem install_extract_save_ok (tid : String) (release : GitHubRelease)
    (asset : GitHubAsset) (env : InstallEnv) (w : World) (evs : List Event)
    (hde : dispatch_extract asset env = .ok ())
    (hs : env.saveRes = .ok ()) :
    install_extract tid release asset env w evs =
      (⟨true, "Installed version " ++ trim_start_v release.tag_name⟩,
       ⟨ConfigFile.stored ((load_config w.configFile).insert tid
          (trim_start_v release.tag_name)), env.bundleAfterExtract⟩,
       evs ++ dispatch_event asset ++
         [Event.removeTemp, Event.clearQuarantine, Event.saveCfg]) := by
  simp [install_extract, hde, hs]

theorem install_extract_trace_extends (tid : String) (release : GitHubRelease)
    (asset : GitHubAsset) (env : InstallEnv) (w : World) (evs : List Event) :
    ∃ rest, (install_extract tid release asset env w evs).2.2 = evs ++ rest := by
  cases hde : dispatch_extract asset env with
  | error e =>
    exact ⟨dispatch_event asset ++ [Event.removeTemp],
      by simp [install_extract_error_shape tid release asset env w evs e hde]⟩
  | ok u =>
    cases u
    cases hs : env.saveRes with
    | error e =>
      exact ⟨dispatch_event asset ++
          [Event.removeTemp, Event.clearQuarantine, Event.saveCfg],
        by simp [install_extract_save_error tid release asset env w evs e hde hs]⟩
    | ok u2 =>
      cases u2
      exact ⟨dispatch_event asset ++
          [Event.removeTemp, Event.clearQuarantine, Event.saveCfg],
        by simp [install_extract_save_ok tid release asset env w evs hde hs]⟩

theorem install_extract_success_shape (tid : String) (release : GitHubRelease)
    (asset : GitHubAsset) (env : InstallEnv) (w : World) (evs : List Event)
    (hsucc : (install_extract tid release asset env w evs).1.success = true) :
    (install_extract tid release asset env w evs).1.message =
      "Installed version " ++ trim_start_v release.tag_name ∧
    (install_extract tid release asset env w evs).2.1 =
      ⟨ConfigFile.stored ((load_config w.configFile).insert tid
        (trim_start_v release.tag_name)), env.bundleAfterExtract⟩ := by
  cases hde : dispatch_extract asset env with
  | error e =>
    rw [install_extract_error_shape tid release asset env w evs e hde] at hsucc
    simp at hsucc
  | ok u =>
    cases u
    cases hs : env.saveRes with
    | error e =>
      rw [install_extract_save_error tid release asset env w evs e hde hs] at hsucc
      simp at hsucc
    | ok u2 =>
      cases u2
      rw [install_extract_save_ok tid release asset env w evs hde hs]
      exact ⟨rfl, rfl⟩

theorem install_tool_remove_error (env : InstallEnv) (w : World)
    (r : GitHubRelease) (a : GitHubAsset) (e : String)
    (hdirs : env.ensureDirsRes = .ok ())
    (hrel : env.latestRelease = .ok r)
    (hfa : find_app_asset r = some a)
    (hdl : env.downloadRes = .ok ())
    (hex : w.appPathExists = true)
    (hrm : env.removeRes = .error e) :
    install_tool "resolve-sync" env w =
      (⟨false, "Failed to remove existing app: " ++ e⟩, w,
       [Event.download, Event.removeOld]) := by
  simp [install_tool, hdirs, hrel, hfa, hdl, hex, hrm]

theorem install_tool_reach_extract (env : InstallEnv) (w : World)
    (r : GitHubRelease) (a : GitHubAsset)
    (hdirs : env.ensureDirsRes = .ok ())
    (hrel : env.latestRelease = .ok r)
    (hfa : find_app_asset r = some a)
    (hdl : env.downloadRes = .ok ()) :
    (w.appPathExists = true → env.removeRes = .ok () →
      install_tool "resolve-sync" env w =
        install_extract "resolve-sync" r a env ⟨w.configFile, false⟩
          [Event.download, Event.removeOld]) ∧
    (w.appPathExists = false →
      install_tool "resolve-sync" env w =
        install_extract "resolve-sync" r a env w [Event.download]) := by
  constructor
  · intro hex hrm
    simp [install_tool, hdirs, hrel, hfa, hdl, hex, hrm]
  · intro hex
    simp [install_tool, hdirs, hrel, hfa, hdl, hex]

theorem install_success_shape (env : InstallEnv) (w : World) (r : GitHubRelease)
    (hrel : env.latestRelease = .ok r)
    (hsucc : (install_tool "resolve-sync" env w).1.success = true) :
    (install_tool "resolve-sync" env w).1.message =
      "Installed version " ++ trim_start_v r.tag_name ∧
    (install_tool "resolve-sync" env w).2.1 =
      ⟨ConfigFile.stored ((load_config w.configFile).insert "resolve-sync"
        (trim_start_v r.tag_name)), env.bundleAfterExtract⟩ := by
  cases hdirs : env.ensureDirsRes with
  | error e => simp [install_tool, hdirs] at hsucc
  | ok u =>
    cases u
    cases hfa : find_app_asset r with
    | none => simp [install_tool, hdirs, hrel, hfa] at hsucc
    | some a =>
      cases hdl : env.downloadRes with
      | error e => simp [install_tool, hdirs, hrel, hfa, hdl] at hsucc
      | ok u2 =>
        cases u2
        cases hex : w.appPathExists with
        | false =>
          rw [(install_tool_reach_extract env w r a hdirs hrel hfa hdl).2 hex] at hsucc ⊢
          exact install_extract_success_shape "resolve-sync" r a env w [Event.download] hsucc
        | true =>
          cases hrm : env.removeRes with
          | error e =>
            rw [install_tool_remove_error env w r a e hdirs hrel hfa hdl hex hrm] at hsucc
            simp at hsucc
          | ok u3 =>
            cases u3
            rw [(install_tool_reach_extract env w r a hdirs hrel hfa hdl).1 hex hrm]
              at hsucc ⊢
            exact install_extract_success_shape "resolve-sync" r a env
              ⟨w.configFile, false⟩ [Event.download, Event.removeOld] hsucc

theorem dispatch_extract_ok_of_allOk {env : InstallEnv} {r : GitHubRelease}
    {a : GitHubAsset} (hok : env.allOk r) (hfa : find_app_asset r = some a) :
    dispatch_extract a env = .ok () := by
  obtain ⟨h1, h2, h3, h4, h5, h6, h7, h8, h9⟩ := hok
  rcases (find_app_asset_some_suffix hfa).2 with h | h | h
  · rw [dispatch_extract, if_pos (selector_tar_dispatch h)]
    exact h5
  · obtain ⟨ht, hz⟩ := selector_zip_dispatch h
    rw [dispatch_extract, if_neg (by simp [ht]), if_pos hz]
    exact h6
  · obtain ⟨ht, hz⟩ := selector_dmg_dispatch h
    rw [dispatch_extract, if_neg (by simp [ht]), if_neg (by simp [hz]), if_pos h]
    exact h7

theorem install_tool_allOk (env : InstallEnv) (w : World) (r : GitHubRelease)
    (a : GitHubAsset) (hok : env.allOk r) (hfa : find_app_asset r = some a) :
    (install_tool "resolve-sync" env w).1 =
      ⟨true, "Installed version " ++ trim_start_v r.tag_name⟩ ∧
    (install_tool "resolve-sync" env w).2.1 =
      ⟨ConfigFile.stored ((load_config w.configFile).insert "resolve-sync"
        (trim_start_v r.tag_name)), true⟩ := by
  have hde := dispatch_extract_ok_of_allOk hok hfa
  obtain ⟨h1, h2, h3, h4, h5, h6, h7, h8, h9⟩ := hok
  cases hex : w.appPathExists with
  | true =>
    rw [(install_tool_reach_extract env w r a h1 h2 hfa h3).1 hex h4,
      install_extract_save_ok _ _ _ _ _ _ hde h9]
    rw [h8]
    exact ⟨rfl, rfl⟩
  | false =>
    rw [(install_tool_reach_extract env w r a h1 h2 hfa h3).2 hex,
      install_extract_save_ok _ _ _ _ _ _ hde h9]
    rw [h8]
    exact ⟨rfl, rfl⟩

theorem is_tool_installed_eq (w : World) :
    is_tool_installed "resolve-sync" w =
      ((load_config w.configFile).contains_key "resolve-sync" && w.appPathExists) := by
  cases h : (load_config w.configFile).contains_key "resolve-sync" <;>
    simp [is_tool_installed, h]

/-! ## The claims -/

/-- C1: `find_app_asset` follows the deterministic preference order: the
first asset ending in `.app.tar.gz`; else the first ending in `.app.zip`;
else the first ending in `.dmg`; else `none`.  In particular, when the
asset list has both a `.app.tar.gz` entry and a `.dmg` entry, the
`.app.tar.gz` entry is returned. -/
theorem find_app_asset_preference (r : GitHubRelease) :
    ((∃ a ∈ r.assets, ends_with a.name ".app.tar.gz" = true) →
      ∃ l₁ a l₂, r.assets = l₁ ++ a :: l₂ ∧
        ends_with a.name ".app.tar.gz" = true ∧
        (∀ b ∈ l₁, ends_with b.name ".app.tar.gz" = false) ∧
        find_app_asset r = some a) ∧
    ((∀ a ∈ r.assets, ends_with a.name ".app.tar.gz" = false) →
      (∃ a ∈ r.assets, ends_with a.name ".app.zip" = true) →
      ∃ l₁ a l₂, r.assets = l₁ ++ a :: l₂ ∧
        ends_with a.name ".app.zip" = true ∧
        (∀ b ∈ l₁, ends_with b.name ".app.zip" = false) ∧
        find_app_asset r = some a) ∧
    ((∀ a ∈ r.assets, ends_with a.name ".app.tar.gz" = false ∧
        ends_with a.name ".app.zip" = false) →
      (∃ a ∈ r.assets, ends_with a.name ".dmg" = true) →
      ∃ l₁ a l₂, r.assets = l₁ ++ a :: l₂ ∧
        ends_with a.name ".dmg" = true ∧
        (∀ b ∈ l₁, ends_with b.name ".dmg" = false) ∧
        find_app_asset r = some a) ∧
    ((∀ a ∈ r.assets, ends_with a.name ".app.tar.gz" = false ∧
        ends_with a.name ".app.zip" = false ∧ ends_with a.name ".dmg" = false) →
      find_app_asset r = none) ∧
    ((∃ a ∈ r.assets, ends_with a.name ".app.tar.gz" = true) →
      (∃ a ∈ r.assets, ends_with a.name ".dmg" = true) →
      ∃ a, find_app_asset r = some a ∧ ends_with a.name ".app.tar.gz" = true) := by
  refine ⟨?_, ?_, ?_, fun h => find_app_asset_eq_none h, ?_⟩
  · intro hex
    obtain ⟨a0, hf⟩ :=
      find?_exists_some (fun a => ends_with a.name ".app.tar.gz") r.assets hex
    obtain ⟨l₁, l₂, hsplit, hpa, hall⟩ := find?_eq_some_split _ _ _ hf
    refine ⟨l₁, a0, l₂, hsplit, by simpa using hpa, ?_, ?_⟩
    · intro b hb
      simpa using hall b hb
    · unfold find_app_asset
      rw [hf]
  · intro hno hex
    have h₁ : r.assets.find? (fun a => ends_with a.name ".app.tar.gz") = none :=
      List.find?_eq_none.mpr (fun a ha => by simp [hno a ha])
    obtain ⟨a0, hf⟩ :=
      find?_exists_some (fun a => ends_with a.name ".app.zip") r.assets hex
    obtain ⟨l₁, l₂, hsplit, hpa, hall⟩ := find?_eq_some_split _ _ _ hf
    refine ⟨l₁, a0, l₂, hsplit, by simpa using hpa, ?_, ?_⟩
    · intro b hb
      simpa using hall b hb
    · unfold find_app_asset
      rw [h₁, hf]
  · intro hno hex
    have h₁ : r.assets.find? (fun a => ends_with a.name ".app.tar.gz") = none :=
      List.find?_eq_none.mpr (fun a ha => by simp [(hno a ha).1])
    have h₂ : r.assets.find? (fun a => ends_with a.name ".app.zip") = none :=
      List.find?_eq_none.mpr (fun a ha => by simp [(hno a ha).2])
    obtain ⟨a0, hf⟩ :=
      find?_exists_some (fun a => ends_with a.name ".dmg") r.assets hex
    obtain ⟨l₁, l₂, hsplit, hpa, hall⟩ := find?_eq_some_split _ _ _ hf
    refine ⟨l₁, a0, l₂, hsplit, by simpa using hpa, ?_, ?_⟩
    · intro b hb
      simpa using hall b hb
    · unfold find_app_asset
      rw [h₁, h₂, hf]
  · intro hex _hdmg
    obtain ⟨a0, hf⟩ :=
      find?_exists_some (fun a => ends_with a.name ".app.tar.gz") r.assets hex
    refine ⟨a0, ?_, by simpa using List.find?_some hf⟩
    unfold find_app_asset
    rw [hf]

theorem find_app_asset_preference_witness :
    ∃ a, find_app_asset demoRelease = some a ∧
      ends_with a.name ".app.tar.gz" = true :=
  (find_app_asset_preference demoRelease).2.2.2.2
    ⟨demoAssetTar, by decide, by decide⟩ ⟨demoAssetDmg, by decide, by decide⟩

/-- C2: when the release has no asset matching any of the three suffixes,
`install_tool` fails with the no-compatible-download message, attempts no
download, and leaves the whole world (in particular the tools config)
unchanged. -/
theorem install_no_compatible_asset (env : InstallEnv) (w : World)
    (r : GitHubRelease)
    (hdirs : env.ensureDirsRes = .ok ())
    (hrel : env.latestRelease = .ok r)
    (hnone : ∀ a ∈ r.assets, ends_with a.name ".app.tar.gz" = false ∧
      ends_with a.name ".app.zip" = false ∧ ends_with a.name ".dmg" = false) :
    install_tool "resolve-sync" env w =
      (⟨false, "No compatible download found in release"⟩, w, []) ∧
    Event.download ∉ (install_tool "resolve-sync" env w).2.2 := by
  have hfa := find_app_asset_eq_none hnone
  have h1 : install_tool "resolve-sync" env w =
      (⟨false, "No compatible download found in release"⟩, w, []) := by
    simp [install_tool, hdirs, hrel, hfa]
  refine ⟨h1, ?_⟩
  rw [h1]
  simp

theorem install_no_compatible_asset_witness :
    install_tool "resolve-sync" demoEnvNoAsset demoWorld =
      (⟨false, "No compatible download found in release"⟩, demoWorld, []) ∧
    Event.download ∉ (install_tool "resolve-sync" demoEnvNoAsset demoWorld).2.2 :=
  install_no_compatible_asset demoEnvNoAsset demoWorld demoReleaseNoAsset
    rfl rfl (by decide)

/-- C3: `check_tool_status` computes `installed` as the conjunction of
"tool id present in the config" and "app bundle exists on disk", computes
`has_update` as `installed` AND "an installed version exists and differs
from the latest version", and for a tool id absent from the config or
with no on-disk bundle returns `installed = false` and
`has_update = false` whatever the registry returned. -/
theorem check_status_installed_conjunction (w : World) :
    (∀ lat, (check_tool_status "resolve-sync" lat w).installed =
      ((load_config w.configFile).contains_key "resolve-sync" &&
        w.appPathExists)) ∧
    (∀ r : GitHubRelease,
      (check_tool_status "resolve-sync" (.ok r) w).has_update =
        ((check_tool_status "resolve-sync" (.ok r) w).installed &&
          (((get_installed_version "resolve-sync" w).map
            (fun v => v != trim_start_v r.tag_name)).getD false))) ∧
    (∀ tool_id lat,
      ((load_config w.configFile).contains_key tool_id = false ∨
        w.appPathExists = false) →
      (check_tool_status tool_id lat w).installed = false ∧
      (check_tool_status tool_id lat w).has_update = false) := by
  refine ⟨?_, ?_, ?_⟩
  · intro lat
    cases lat <;> simp [check_tool_status, is_tool_installed_eq]
  · intro r
    simp [check_tool_status]
  · intro tool_id lat h
    by_cases ht : tool_id = "resolve-sync"
    · subst ht
      rcases h with h | h <;>
        cases lat <;> simp [check_tool_status, is_tool_installed_eq, h]
    · simp [check_tool_status, ht]

theorem check_status_installed_conjunction_witness :
    (check_tool_status "resolve-sync" (.ok demoRelease)
      ⟨ConfigFile.absent, false⟩).installed = false ∧
    (check_tool_status "resolve-sync" (.ok demoRelease)
      ⟨ConfigFile.absent, false⟩).has_update = false :=
  (check_status_installed_conjunction ⟨ConfigFile.absent, false⟩).2.2
    "resolve-sync" (.ok demoRelease) (Or.inl (by decide))

/-- C4: every successful install against a release with tag `T` leaves a
world in which `check_tool_status` reports `installed = true` and
`installed_version = some T-with-leading-v-stripped`, whatever the
registry answers at status time (`env.bundleAfterExtract = true` is the
environmental assumption, stated by the spec, that the extracted archive
yields the app bundle on disk). -/
theorem install_success_then_check (env : InstallEnv) (w : World)
    (r : GitHubRelease) (lat : Except String GitHubRelease)
    (hrel : env.latestRelease = .ok r)
    (hbundle : env.bundleAfterExtract = true)
    (hsucc : (install_tool "resolve-sync" env w).1.success = true) :
    (check_tool_status "resolve-sync" lat
      (install_tool "resolve-sync" env w).2.1).installed = true ∧
    (check_tool_status "resolve-sync" lat
      (install_tool "resolve-sync" env w).2.1).installed_version =
      some (trim_start_v r.tag_name) := by
  obtain ⟨_hmsg, hw⟩ := install_success_shape env w r hrel hsucc
  rw [hbundle] at hw
  rw [hw]
  cases lat <;>
    simp [check_tool_status, is_tool_installed_eq, get_installed_version,
      load_config, ToolsConfig.contains_key_insert, ToolsConfig.get_insert]

theorem install_success_then_check_witness :
    (check_tool_status "resolve-sync" (.error "network down")
      (install_tool "resolve-sync" demoEnvOk demoWorld).2.1).installed = true ∧
    (check_tool_status "resolve-sync" (.error "network down")
      (install_tool "resolve-sync" demoEnvOk demoWorld).2.1).installed_version =
      some (trim_start_v demoRelease.tag_name) :=
  install_success_then_check demoEnvOk demoWorld demoRelease
    (.error "network down") rfl rfl (by decide)

/-- C5: when the install directory already exists and the install has
reached the removal step, the recursive removal is attempted before any
extraction; if the removal fails the install aborts with the
remove-failure message and no extraction event ever occurs, and if it
succeeds the trace puts the removal strictly before everything that
follows (in particular before the extraction events). -/
theorem install_removes_old_before_extract (env : InstallEnv) (w : World)
    (r : GitHubRelease) (a : GitHubAsset)
    (hdirs : env.ensureDirsRes = .ok ())
    (hrel : env.latestRelease = .ok r)
    (hfa : find_app_asset r = some a)
    (hdl : env.downloadRes = .ok ())
    (hex : w.appPathExists = true) :
    (∀ e, env.removeRes = .error e →
      (install_tool "resolve-sync" env w).1.success = false ∧
      (install_tool "resolve-sync" env w).1.message =
        "Failed to remove existing app: " ++ e ∧
      ∀ ev ∈ (install_tool "resolve-sync" env w).2.2,
        isExtractEvent ev = false) ∧
    (env.removeRes = .ok () →
      ∃ rest, (install_tool "resolve-sync" env w).2.2 =
        Event.download :: Event.removeOld :: rest) := by
  constructor
  · intro e hrm
    rw [install_tool_remove_error env w r a e hdirs hrel hfa hdl hex hrm]
    refine ⟨rfl, rfl, ?_⟩
    intro ev hev
    simp at hev
    rcases hev with rfl | rfl <;> rfl
  · intro hrm
    rw [(install_tool_reach_extract env w r a hdirs hrel hfa hdl).1 hex hrm]
    obtain ⟨rest, hr⟩ := install_extract_trace_extends "resolve-sync" r a env
      ⟨w.configFile, false⟩ [Event.download, Event.removeOld]
    exact ⟨rest, by simpa using hr⟩

theorem install_removes_old_before_extract_witness :
    (install_tool "resolve-sync" demoEnvRmFail demoWorld).1.success = false ∧
    (install_tool "resolve-sync" demoEnvRmFail demoWorld).1.message =
      "Failed to remove existing app: " ++ "busy" ∧
    ∀ ev ∈ (install_tool "resolve-sync" demoEnvRmFail demoWorld).2.2,
      isExtractEvent ev = false :=
  (install_removes_old_before_extract demoEnvRmFail demoWorld demoRelease
    demoAssetTar rfl rfl (by decide) rfl rfl).1 "busy" rfl

/-- C6: in `extract_from_dmg`, a failed mount-point lookup is a hard error
before any copy is attempted, and whenever the copy is attempted the
detach step runs right after it (before the copy's result is returned),
regardless of whether the copy succeeded. -/
theorem dmg_mount_lookup_and_detach (env : DmgEnv) :
    ((env.attachRes = .ok () → env.attachStatusOk = true →
      env.infoRes = .ok () → find_mount_point env.infoStdout = none →
      (extract_from_dmg env).1 = .error "Failed to find mount point" ∧
      DmgEvent.copyApp ∉ (extract_from_dmg env).2)) ∧
    (DmgEvent.copyApp ∈ (extract_from_dmg env).2 →
      ∃ l, (extract_from_dmg env).2 =
        l ++ [DmgEvent.copyApp, DmgEvent.detachDisk]) := by
  constructor
  · intro ha hst hi hmp
    simp [extract_from_dmg, ha, hst, hi, hmp]
  · intro hmem
    cases ha : env.attachRes with
    | error e => simp [extract_from_dmg, ha] at hmem
    | ok u =>
      cases u
      cases hst : env.attachStatusOk with
      | false => simp [extract_from_dmg, ha, hst] at hmem
      | true =>
        cases hi : env.infoRes with
        | error e => simp [extract_from_dmg, ha, hst, hi] at hmem
        | ok u2 =>
          cases u2
          cases hmp : find_mount_point env.infoStdout with
          | none => simp [extract_from_dmg, ha, hst, hi, hmp] at hmem
          | some mp =>
            refine ⟨[DmgEvent.attachDisk, DmgEvent.queryInfo], ?_⟩
            simp [extract_from_dmg, ha, hst, hi, hmp]

theorem dmg_mount_lookup_and_detach_witness :
    ((extract_from_dmg demoDmgEnvNoVol).1 =
      .error "Failed to find mount point" ∧
     DmgEvent.copyApp ∉ (extract_from_dmg demoDmgEnvNoVol).2) ∧
    ∃ l, (extract_from_dmg demoDmgEnvOk).2 =
      l ++ [DmgEvent.copyApp, DmgEvent.detachDisk] :=
  ⟨(dmg_mount_lookup_and_detach demoDmgEnvNoVol).1 rfl rfl rfl (by decide),
   (dmg_mount_lookup_and_detach demoDmgEnvOk).2 (by decide)⟩

/-- C7: if saving the config fails after the extraction succeeded (the
save step was reached), `install_tool` reports failure with the
config-save error message — never a silent success. -/
theorem install_save_failure_reported (env : InstallEnv) (w : World)
    (e : String)
    (hsave : env.saveRes = .error e)
    (hreach : Event.saveCfg ∈ (install_tool "resolve-sync" env w).2.2) :
    (install_tool "resolve-sync" env w).1.success = false ∧
    (install_tool "resolve-sync" env w).1.message =
      "Failed to save config: " ++ e := by
  cases hdirs : env.ensureDirsRes with
  | error e2 => simp [install_tool, hdirs] at hreach
  | ok u =>
    cases u
    cases hrel : env.latestRelease with
    | error e2 => simp [install_tool, hdirs, hrel] at hreach
    | ok r =>
      cases hfa : find_app_asset r with
      | none => simp [install_tool, hdirs, hrel, hfa] at hreach
      | some a =>
        cases hdl : env.downloadRes with
        | error e2 => simp [install_tool, hdirs, hrel, hfa, hdl] at hreach
        | ok u2 =>
          cases u2
          have hfin : ∀ v : World, ∀ evs : List Event, Event.saveCfg ∉ evs →
              Event.saveCfg ∈ (install_extract "resolve-sync" r a env v evs).2.2 →
              (install_extract "resolve-sync" r a env v evs).1.success = false ∧
              (install_extract "resolve-sync" r a env v evs).1.message =
                "Failed to save config: " ++ e := by
            intro v evs hnev hmem
            cases hde : dispatch_extract a env with
            | error e2 =>
              rw [install_extract_error_shape "resolve-sync" r a env v evs e2 hde]
                at hmem
              simp [saveCfg_not_mem_dispatch_event a, hnev] at hmem
            | ok u3 =>
              cases u3
              rw [install_extract_save_error "resolve-sync" r a env v evs e hde hsave]
              exact ⟨rfl, rfl⟩
          cases hex : w.appPathExists with
          | false =>
            rw [(install_tool_reach_extract env w r a hdirs hrel hfa hdl).2 hex]
              at hreach ⊢
            exact hfin w [Event.download] (by decide) hreach
          | true =>
            cases hrm : env.removeRes with
            | error e2 =>
              rw [install_tool_remove_error env w r a e2 hdirs hrel hfa hdl hex hrm]
                at hreach
              simp at hreach
            | ok u3 =>
              cases u3
              rw [(install_tool_reach_extract env w r a hdirs hrel hfa hdl).1 hex hrm]
                at hreach ⊢
              exact hfin ⟨w.configFile, false⟩ [Event.download, Event.removeOld]
                (by decide) hreach

theorem install_save_failure_reported_witness :
    (install_tool "resolve-sync" demoEnvSaveFail demoWorld).1.success = false ∧
    (install_tool "resolve-sync" demoEnvSaveFail demoWorld).1.message =
      "Failed to save config: " ++ "disk full" :=
  install_save_failure_reported demoEnvSaveFail demoWorld "disk full"
    rfl (by decide)

/-- C8: `update_tool` is the identical procedure as `install_tool`; and
against an unchanged remote release, with the external operations
succeeding, two successive updates both succeed with the same message and
leave the same recorded installed version — no error on the second call. -/
theorem update_is_install_and_idempotent (env₁ env₂ : InstallEnv) (w : World)
    (r : GitHubRelease) (a : GitHubAsset)
    (h₁ : env₁.allOk r) (h₂ : env₂.allOk r)
    (hfa : find_app_asset r = some a) :
    (∀ tid env ww, update_tool tid env ww = install_tool tid env ww) ∧
    (update_tool "resolve-sync" env₁ w).1.success = true ∧
    (update_tool "resolve-sync" env₂
      (update_tool "resolve-sync" env₁ w).2.1).1.success = true ∧
    (update_tool "resolve-sync" env₂
      (update_tool "resolve-sync" env₁ w).2.1).1.message =
      (update_tool "resolve-sync" env₁ w).1.message ∧
    get_installed_version "resolve-sync"
      (update_tool "resolve-sync" env₁ w).2.1 =
      some (trim_start_v r.tag_name) ∧
    get_installed_version "resolve-sync"
      (update_tool "resolve-sync" env₂
        (update_tool "resolve-sync" env₁ w).2.1).2.1 =
      some (trim_start_v r.tag_name) := by
  obtain ⟨hres₁, hw₁⟩ := install_tool_allOk env₁ w r a h₁ hfa
  obtain ⟨hres₂, hw₂⟩ :=
    install_tool_allOk env₂ (install_tool "resolve-sync" env₁ w).2.1 r a h₂ hfa
  refine ⟨fun tid env ww => rfl, ?_, ?_, ?_, ?_, ?_⟩
  · unfold update_tool
    rw [hres₁]
  · unfold update_tool
    rw [hres₂]
  · unfold update_tool
    rw [hres₁, hres₂]
  · unfold update_tool
    rw [hw₁]
    simp [get_installed_version, load_config, ToolsConfig.get_insert]
  · unfold update_tool
    rw [hw₂]
    simp [get_installed_version, load_config, ToolsConfig.get_insert]

theorem update_is_install_and_idempotent_witness :
    (update_tool "resolve-sync" demoEnvOk demoWorld).1.success = true ∧
    (update_tool "resolve-sync" demoEnvOk
      (update_tool "resolve-sync" demoEnvOk demoWorld).2.1).1.success = true ∧
    (update_tool "resolve-sync" demoEnvOk
      (update_tool "resolve-sync" demoEnvOk demoWorld).2.1).1.message =
      (update_tool "resolve-sync" demoEnvOk demoWorld).1.message ∧
    get_installed_version "resolve-sync"
      (update_tool "resolve-sync" demoEnvOk
        (update_tool "resolve-sync" demoEnvOk demoWorld).2.1).2.1 =
      some (trim_start_v demoRelease.tag_name) := by
  obtain ⟨-, h2, h3, h4, -, h6⟩ :=
    update_is_install_and_idempotent demoEnvOk demoEnvOk demoWorld demoRelease
      demoAssetTar ⟨rfl, rfl, rfl, rfl, rfl, rfl, rfl, rfl, rfl⟩
      ⟨rfl, rfl, rfl, rfl, rfl, rfl, rfl, rfl, rfl⟩ (by decide)
  exact ⟨h2, h3, h4, h6⟩

/-- C9: `load_config` is total and never surfaces an error: an absent,
unreadable or unparseable config file degrades to the default (empty)
record, and a stored record is returned as is. -/
theorem load_config_total_default :
    load_config ConfigFile.absent = ToolsConfig.empty ∧
    load_config ConfigFile.unreadable = ToolsConfig.empty ∧
    load_config ConfigFile.unparseable = ToolsConfig.empty ∧
    (∀ c, load_config (ConfigFile.stored c) = c) ∧
    (∀ f, ∃ c, load_config f = c ∧
      (c = ToolsConfig.empty ∨ f = ConfigFile.stored c)) := by
  refine ⟨rfl, rfl, rfl, fun c => rfl, fun f => ?_⟩
  cases f with
  | absent => exact ⟨ToolsConfig.empty, rfl, Or.inl rfl⟩
  | unreadable => exact ⟨ToolsConfig.empty, rfl, Or.inl rfl⟩
  | unparseable => exact ⟨ToolsConfig.empty, rfl, Or.inl rfl⟩
  | stored c => exact ⟨c, rfl, Or.inr rfl⟩

/-- C10: every asset name the selector accepts ends in one of the three
dispatch suffixes (`.tar.gz`, `.zip`, `.dmg`), so the format dispatch
never takes the "Unsupported archive format" fallback (whose trace
contribution `dispatch_event` would be `[]`) after a successful
selection. -/
theorem selector_implies_dispatch (r : GitHubRelease) (a : GitHubAsset)
    (hfa : find_app_asset r = some a) :
    (ends_with a.name ".tar.gz" = true ∨ ends_with a.name ".zip" = true ∨
      ends_with a.name ".dmg" = true) ∧
    dispatch_event a ≠ [] := by
  have hdis : ends_with a.name ".tar.gz" = true ∨
      ends_with a.name ".zip" = true ∨ ends_with a.name ".dmg" = true := by
    rcases (find_app_asset_some_suffix hfa).2 with h | h | h
    · exact Or.inl (selector_tar_dispatch h)
    · exact Or.inr (Or.inl (selector_zip_dispatch h).2)
    · exact Or.inr (Or.inr h)
  refine ⟨hdis, ?_⟩
  unfold dispatch_event
  rcases hdis with h | h | h
  · rw [if_pos h]
    simp
  · by_cases ht : ends_with a.name ".tar.gz" = true
    · rw [if_pos ht]
      simp
    · rw [if_neg ht, if_pos h]
      simp
  · by_cases ht : ends_with a.name ".tar.gz" = true
    · rw [if_pos ht]
      simp
    · rw [if_neg ht]
      by_cases hz : ends_with a.name ".zip" = true
      · rw [if_pos hz]
        simp
      · rw [if_neg hz, if_pos h]
        simp

theorem selector_implies_dispatch_witness :
    (ends_with demoAssetTar.name ".tar.gz" = true ∨
      ends_with demoAssetTar.name ".zip" = true ∨
      ends_with demoAssetTar.name ".dmg" = true) ∧
    dispatch_event demoAssetTar ≠ [] :=
  selector_implies_dispatch demoRelease demoAssetTar (by decide)

end StoryLauncher
